import Mathlib

/-!
Verification of the synchronization and merge engine of `git-clone-stats`.

This file shallowly embeds the parts of the program that the verified
properties talk about:

* `src/git_clone_stats/models.py` — the record factories (`CloneRecord` /
  `ViewRecord` and their `from_github_entry` classmethods);
* `src/git_clone_stats/app.py` — `DatabaseManager` (the SQLite backend:
  upserts, tracked-repo bookkeeping, star snapshots, export/import) and
  `GitHubStatsTracker` (`_get_repo_path`, `_update_repository`,
  `update_all_repositories`) plus `run_sync`;
* `src/git_clone_stats/server_db_adapter.py` — `SQLiteAdapter` and
  `FirestoreAdapter` read-side summaries;
* `src/git_clone_stats/firestore_db.py` — the Firestore collections read
  by `FirestoreAdapter`.

Modelling conventions:

* SQLite tables are modelled as Lean lists of row structures, in insertion
  order.  `INSERT OR REPLACE` on a table with a primary key deletes every
  row that collides on the key and appends the new row; `INSERT OR IGNORE`
  appends the row only when no row with the same key exists; `UPDATE ...
  WHERE` maps over the rows.  This is exactly SQLite's documented conflict
  resolution for these statements.
* Timestamps are ISO-8601 UTC strings in the source.  Both SQLite's
  `datetime()` ordering and raw TEXT ordering are strictly monotone in the
  instant a well-formed ISO-8601 UTC string denotes, so timestamps are
  modelled as integers (seconds since the epoch); `datetime('now','-14
  days')` becomes `now - 14 * 86400`.
* Wall-clock reads (`datetime.now()`, `datetime.utcnow()`, SQLite `'now'`)
  are passed in as explicit `now : Int` arguments.
* Python dictionaries built with fixed string keys (the summary payloads)
  are modelled as association lists `List (String × Val)` in the key order
  of the source dict literal, so that a missing key is observable.
-/

namespace GitCloneStats

/-- models.py: `CloneRecord` dataclass, fields in source order
(`count`, `timestamp`, `uniques`), for well-formed (integer-valued)
GitHub entries. -/
structure CloneRecord where
  count : Int
  timestamp : Int
  uniques : Int
deriving DecidableEq, Repr

/-- models.py: `ViewRecord` dataclass — same shape as `CloneRecord`,
kept separate exactly as the source keeps two classes. -/
structure ViewRecord where
  count : Int
  timestamp : Int
  uniques : Int
deriving DecidableEq, Repr

/-- A row of the `clone_history` / `view_history` tables:
`(repo TEXT, timestamp TEXT, count INTEGER, uniques INTEGER,
PRIMARY KEY (repo, timestamp))`. -/
structure HistoryRow where
  repo : String
  timestamp : Int
  count : Int
  uniques : Int
deriving DecidableEq, Repr

/-- A row of the `tracked_repos` table:
`(repo_name TEXT PRIMARY KEY, added_at TEXT NOT NULL, is_active INTEGER
DEFAULT 1, last_sync TEXT, owner_type TEXT DEFAULT 'user')`. -/
structure TrackedRepoRow where
  repo_name : String
  added_at : Int
  is_active : Int
  last_sync : Option Int
  owner_type : String
deriving DecidableEq, Repr

/-- A row of the `repo_stars` table:
`(repo TEXT PRIMARY KEY, star_count INTEGER, last_updated TEXT)`. -/
structure RepoStarsRow where
  repo : String
  star_count : Int
  last_updated : Int
deriving DecidableEq, Repr

/-- The state of the SQLite database: the four tables created by
`DatabaseManager.setup_database`. -/
structure DbState where
  clone_history : List HistoryRow
  view_history : List HistoryRow
  tracked_repos : List TrackedRepoRow
  repo_stars : List RepoStarsRow
deriving DecidableEq, Repr

/-- A database with all four tables empty. -/
def emptyDb : DbState := ⟨[], [], [], []⟩

/-! Generic primary-key table primitives.  SQLite resolves an
`INSERT OR REPLACE` on a keyed table by deleting every row colliding on
the key and inserting the new row, and an `INSERT OR IGNORE` by dropping
the insert when a row with the key exists; each table instantiates these
with its primary key. -/

/-- The rows of table `t` whose key is `k`. -/
def rowsBy {α κ : Type} [BEq κ] (key : α → κ) (t : List α) (k : κ) : List α :=
  t.filter (fun row => key row == k)

/-- Whether table `t` holds a row with key `k`. -/
def containsBy {α κ : Type} [BEq κ] (key : α → κ) (t : List α) (k : κ) : Bool :=
  t.any (fun row => key row == k)

/-- `INSERT OR REPLACE` of row `r` into table `t` keyed by `key`. -/
def replaceBy {α κ : Type} [BEq κ] (key : α → κ) (t : List α) (r : α) : List α :=
  t.filter (fun row => key row != key r) ++ [r]

/-- `INSERT OR IGNORE` of row `r` into table `t` keyed by `key`. -/
def insertIgnoreBy {α κ : Type} [BEq κ] (key : α → κ) (t : List α) (r : α) : List α :=
  if containsBy key t (key r) then t else t ++ [r]

/-- The `(repo, timestamp)` primary key of a history row. -/
def hKey (r : HistoryRow) : String × Int := (r.repo, r.timestamp)

/-- `INSERT OR REPLACE` into `clone_history` / `view_history`
(primary key `(repo, timestamp)`). -/
def replaceIntoHistory (t : List HistoryRow) (r : HistoryRow) : List HistoryRow :=
  replaceBy hKey t r

/-- `INSERT OR IGNORE` into `clone_history` / `view_history`. -/
def insertIgnoreHistory (t : List HistoryRow) (r : HistoryRow) : List HistoryRow :=
  insertIgnoreBy hKey t r

/-- All rows of a history table under a given `(repo, timestamp)` key. -/
def rowsWithKey (t : List HistoryRow) (k : String × Int) : List HistoryRow :=
  rowsBy hKey t k

/-- Whether a history table holds a row under the given key. -/
def containsKey (t : List HistoryRow) (k : String × Int) : Bool :=
  containsBy hKey t k

/-- `INSERT OR REPLACE` into `tracked_repos` (primary key `repo_name`). -/
def replaceIntoTracked (t : List TrackedRepoRow) (r : TrackedRepoRow) : List TrackedRepoRow :=
  replaceBy TrackedRepoRow.repo_name t r

/-- All `tracked_repos` rows with the given `repo_name`. -/
def trackedRowsWithName (t : List TrackedRepoRow) (n : String) : List TrackedRepoRow :=
  rowsBy TrackedRepoRow.repo_name t n

/-- Whether `tracked_repos` holds a row with the given `repo_name`. -/
def containsTrackedName (t : List TrackedRepoRow) (n : String) : Bool :=
  containsBy TrackedRepoRow.repo_name t n

/-- `INSERT OR REPLACE` into `repo_stars` (primary key `repo`). -/
def replaceIntoStars (t : List RepoStarsRow) (r : RepoStarsRow) : List RepoStarsRow :=
  replaceBy RepoStarsRow.repo t r

/-- All `repo_stars` rows with the given `repo`. -/
def starRowsWithName (t : List RepoStarsRow) (n : String) : List RepoStarsRow :=
  rowsBy RepoStarsRow.repo t n

/-- The history row written for a clone record of a repository
(`(repo, record.timestamp, record.count, record.uniques)`). -/
def cloneRow (repo : String) (rec : CloneRecord) : HistoryRow :=
  ⟨repo, rec.timestamp, rec.count, rec.uniques⟩

/-- The history row written for a view record of a repository. -/
def viewRow (repo : String) (rec : ViewRecord) : HistoryRow :=
  ⟨repo, rec.timestamp, rec.count, rec.uniques⟩

/-- `DatabaseManager.upsert_clone_records`: with an empty record list the
method returns immediately; otherwise each `(repo, timestamp, count,
uniques)` tuple is written with `INSERT OR REPLACE INTO clone_history`. -/
def upsert_clone_records (st : DbState) (repo : String) (records : List CloneRecord) : DbState :=
  if records.isEmpty then st
  else { st with clone_history :=
          (records.map (cloneRow repo)).foldl replaceIntoHistory st.clone_history }

/-- `DatabaseManager.upsert_view_records`: same as the clone variant but
against `view_history`. -/
def upsert_view_records (st : DbState) (repo : String) (records : List ViewRecord) : DbState :=
  if records.isEmpty then st
  else { st with view_history :=
          (records.map (viewRow repo)).foldl replaceIntoHistory st.view_history }

/-- The `{"repo_name": ..., "owner_type": ...}` dictionaries returned by
`DatabaseManager.get_tracked_repos`. -/
structure RepoInfo where
  repo_name : String
  owner_type : String
deriving DecidableEq, Repr

/-- `DatabaseManager.get_tracked_repos`: `SELECT repo_name, owner_type
FROM tracked_repos WHERE is_active = 1`, defaulting a falsy (NULL/empty)
`owner_type` to `"user"`. -/
def get_tracked_repos (st : DbState) : List RepoInfo :=
  (st.tracked_repos.filter (fun r => r.is_active == 1)).map
    (fun r => ⟨r.repo_name, if r.owner_type = "" then "user" else r.owner_type⟩)

/-- `DatabaseManager.add_tracked_repo`: `INSERT OR REPLACE INTO
tracked_repos (repo_name, added_at, is_active, owner_type) VALUES
(?, now, 1, ?)` — the unnamed `last_sync` column takes its default NULL.
`now` stands for `datetime.now().isoformat()`. -/
def add_tracked_repo (st : DbState) (repo_name : String) (now : Int) (owner_type : String) : DbState :=
  { st with tracked_repos :=
      replaceIntoTracked st.tracked_repos ⟨repo_name, now, 1, none, owner_type⟩ }

/-- `DatabaseManager.remove_tracked_repo`: `UPDATE tracked_repos
SET is_active = 0 WHERE repo_name = ?`. -/
def remove_tracked_repo (st : DbState) (repo_name : String) : DbState :=
  { st with tracked_repos :=
      st.tracked_repos.map (fun r => if r.repo_name == repo_name then { r with is_active := 0 } else r) }

/-- `DatabaseManager.update_tracked_repo`: `UPDATE tracked_repos
SET last_sync = now WHERE repo_name = ?` (`now` stands for
`datetime.utcnow().isoformat() + 'Z'`). -/
def update_tracked_repo (st : DbState) (repo_name : String) (now : Int) : DbState :=
  { st with tracked_repos :=
      st.tracked_repos.map (fun r => if r.repo_name == repo_name then { r with last_sync := some now } else r) }

/-- `DatabaseManager.update_repo_stars`: `INSERT OR REPLACE INTO
repo_stars (repo, star_count, last_updated) VALUES (?, ?, now)`. -/
def update_repo_stars (st : DbState) (repo : String) (star_count : Int) (now : Int) : DbState :=
  { st with repo_stars := replaceIntoStars st.repo_stars ⟨repo, star_count, now⟩ }

/-! ### Export / import (`DatabaseManager.export_database` / `import_database`) -/

/-- Code-point lexicographic strict order on character lists; SQLite's
`ORDER BY` on TEXT columns compares this way for the ASCII data at hand. -/
def charListLt : List Char → List Char → Bool
  | [], [] => false
  | [], _ :: _ => true
  | _ :: _, [] => false
  | c :: cs, d :: ds => c.toNat < d.toNat || (c.toNat == d.toNat && charListLt cs ds)

/-- `ORDER BY repo, timestamp` comparison for history rows. -/
def histLe (a b : HistoryRow) : Prop :=
  charListLt a.repo.data b.repo.data = true ∨ (a.repo = b.repo ∧ a.timestamp ≤ b.timestamp)

instance : DecidableRel histLe := fun a b =>
  (inferInstance : Decidable (charListLt a.repo.data b.repo.data = true ∨ (a.repo = b.repo ∧ a.timestamp ≤ b.timestamp)))

/-- One entry of the `tracked_repos` list in an export snapshot:
`{repo_name, added_at, is_active, owner_type}`. -/
structure TrackedExport where
  repo_name : String
  added_at : Int
  is_active : Int
  owner_type : String
deriving DecidableEq, Repr

/-- The snapshot dictionary produced by `DatabaseManager.export_database`. -/
structure ExportData where
  export_timestamp : Int
  version : String
  clone_history : List HistoryRow
  view_history : List HistoryRow
  tracked_repos : List TrackedExport
  repo_stars : List RepoStarsRow
deriving DecidableEq, Repr

/-- The exported form of a tracked-repo row (a falsy `owner_type`
defaults to `"user"`; `last_sync` is not exported at all). -/
def exportTrackedRow (r : TrackedRepoRow) : TrackedExport :=
  ⟨r.repo_name, r.added_at, r.is_active, if r.owner_type = "" then "user" else r.owner_type⟩

/-- `DatabaseManager.export_database`: dumps the two history tables
`ORDER BY repo, timestamp` and the `tracked_repos` / `repo_stars` tables
in stored order; `now` stands for `datetime.now().isoformat()`. -/
def export_database (st : DbState) (now : Int) : ExportData :=
  { export_timestamp := now
    version := "1.0"
    clone_history := st.clone_history.insertionSort histLe
    view_history := st.view_history.insertionSort histLe
    tracked_repos := st.tracked_repos.map exportTrackedRow
    repo_stars := st.repo_stars }

/-- The `tracked_repos` row written by `import_database`: only
`(repo_name, added_at, is_active)` are supplied, so `last_sync` takes its
default NULL and `owner_type` its default `'user'`. -/
def importedTrackedRow (e : TrackedExport) : TrackedRepoRow :=
  ⟨e.repo_name, e.added_at, e.is_active, none, "user"⟩

/-- `DatabaseManager.import_database`: with `replace_existing` all four
tables are cleared first; history entries are written with `INSERT OR
IGNORE`, tracked-repo and star entries with `INSERT OR REPLACE`. -/
def import_database (st : DbState) (replace_existing : Bool) (d : ExportData) : DbState :=
  let base := if replace_existing then emptyDb else st
  { clone_history := d.clone_history.foldl insertIgnoreHistory base.clone_history
    view_history := d.view_history.foldl insertIgnoreHistory base.view_history
    tracked_repos := (d.tracked_repos.map importedTrackedRow).foldl replaceIntoTracked base.tracked_repos
    repo_stars := d.repo_stars.foldl replaceIntoStars base.repo_stars }

/-! ### Read-side summaries (`server_db_adapter.SQLiteAdapter`) -/

/-- The trailing window used by the summary queries:
`datetime('now', '-14 days')` lies `14 * 86400` seconds before `now`. -/
def fourteenDays : Int := 14 * 86400

/-- `WHERE repo = ?` restriction of a history table. -/
def rowsFor (t : List HistoryRow) (repo : String) : List HistoryRow :=
  t.filter (fun r => r.repo == repo)

/-- `SUM(count)` with SQL's NULL-on-empty collapsed to `0` (the Python
side applies `or 0` / `COALESCE(..., 0)` in every consumer). -/
def sumCount (rows : List HistoryRow) : Int := (rows.map (·.count)).sum

/-- `SUM(uniques)` with the same NULL-to-0 collapse. -/
def sumUniques (rows : List HistoryRow) : Int := (rows.map (·.uniques)).sum

/-- `WHERE ... AND datetime(timestamp) >= datetime('now','-14 days')`. -/
def recentRows (rows : List HistoryRow) (now : Int) : List HistoryRow :=
  rows.filter (fun r => decide (now - fourteenDays ≤ r.timestamp))

/-- `SUM(CASE WHEN datetime(timestamp) >= datetime('now','-14 days')
THEN count ELSE 0 END)` of the `summarize_all` subqueries. -/
def sumCountRecent (rows : List HistoryRow) (now : Int) : Int :=
  (rows.map (fun r => if now - fourteenDays ≤ r.timestamp then r.count else 0)).sum

/-- The `uniques` variant of `sumCountRecent`. -/
def sumUniquesRecent (rows : List HistoryRow) (now : Int) : Int :=
  (rows.map (fun r => if now - fourteenDays ≤ r.timestamp then r.uniques else 0)).sum

/-- The running-minimum step of a SQL `MIN` aggregate. -/
def minStep (t : Int) (acc : Option Int) : Option Int :=
  some (match acc with | none => t | some m => min t m)

/-- `MIN(timestamp)` over a set of history rows (`none` on empty). -/
def minTimestamp (rows : List HistoryRow) : Option Int :=
  (rows.map (·.timestamp)).foldr minStep none

/-- One row of `SQLiteAdapter.get_all_repos_summary`'s result (the
`RepositorySummary` of the spec), fields in the order of the source's
result dictionary. -/
structure RepoSummary where
  repo : String
  total_clones : Int
  total_unique_clones : Int
  total_views : Int
  total_unique_views : Int
  last_14_days_clones : Int
  last_14_days_unique_clones : Int
  last_14_days_views : Int
  last_14_days_unique_views : Int
  star_count : Int
  last_updated : Option Int
  first_collected : Option Int
deriving DecidableEq, Repr

/-- The summary row `get_all_repos_summary` computes for one active
tracked repo: the `cs` / `vs` subqueries aggregate that repo's history
rows, `COALESCE(..., 0)` turns a missing subquery row into zeros,
`first_collected = COALESCE(cs.first_clone_timestamp,
vs.first_view_timestamp)` and `star_count = COALESCE(rs.star_count, 0)`. -/
def summaryFor (st : DbState) (now : Int) (tr : TrackedRepoRow) : RepoSummary :=
  let cs := rowsFor st.clone_history tr.repo_name
  let vs := rowsFor st.view_history tr.repo_name
  { repo := tr.repo_name
    total_clones := sumCount cs
    total_unique_clones := sumUniques cs
    total_views := sumCount vs
    total_unique_views := sumUniques vs
    last_14_days_clones := sumCountRecent cs now
    last_14_days_unique_clones := sumUniquesRecent cs now
    last_14_days_views := sumCountRecent vs now
    last_14_days_unique_views := sumUniquesRecent vs now
    star_count := match st.repo_stars.find? (fun r => r.repo == tr.repo_name) with
                  | some r => r.star_count
                  | none => 0
    last_updated := tr.last_sync
    first_collected := match minTimestamp cs with
                       | some t => some t
                       | none => minTimestamp vs }

/-- `ORDER BY tr.repo_name` comparison for tracked rows. -/
def trackedLe (a b : TrackedRepoRow) : Prop :=
  ¬ charListLt b.repo_name.data a.repo_name.data = true

instance : DecidableRel trackedLe := fun a b =>
  (inferInstance : Decidable (¬ charListLt b.repo_name.data a.repo_name.data = true))

/-- `SQLiteAdapter.get_all_repos_summary`: one summary row per
`is_active = 1` tracked repo, ordered by `repo_name`. -/
def get_all_repos_summary (st : DbState) (now : Int) : List RepoSummary :=
  ((st.tracked_repos.filter (fun r => r.is_active == 1)).insertionSort trackedLe).map
    (summaryFor st now)

/-- A value of one of the summary dictionaries (`int`, `str` or `None`). -/
inductive Val where
  | vInt (n : Int)
  | vStr (s : String)
  | vNull
deriving DecidableEq, Repr

/-- `SQLiteAdapter.get_stats_for_repo`: the per-repo summary dictionary,
keys in source order.  The `last_sync` / `first_collected` query joins
`tracked_repos` with both history tables; when the repo is not tracked it
returns no row and both values are `None`.  With clone rows present,
`MIN(COALESCE(ch.timestamp, vh.timestamp))` over the join is the minimum
clone timestamp; otherwise it is the minimum view timestamp. -/
def sqliteGetStatsForRepo (st : DbState) (now : Int) (repo_name : String) : List (String × Val) :=
  let cs := rowsFor st.clone_history repo_name
  let vs := rowsFor st.view_history repo_name
  let tr := st.tracked_repos.find? (fun r => r.repo_name == repo_name)
  [("repo", .vStr repo_name),
   ("total_clones", .vInt (sumCount cs)),
   ("total_unique_clones", .vInt (sumUniques cs)),
   ("total_views", .vInt (sumCount vs)),
   ("total_unique_views", .vInt (sumUniques vs)),
   ("last_14_days_clones", .vInt (sumCount (recentRows cs now))),
   ("last_14_days_unique_clones", .vInt (sumUniques (recentRows cs now))),
   ("last_14_days_views", .vInt (sumCount (recentRows vs now))),
   ("last_14_days_unique_views", .vInt (sumUniques (recentRows vs now))),
   ("last_updated", match tr with
                    | none => .vNull
                    | some r => match r.last_sync with
                                | none => .vNull
                                | some t => .vInt t),
   ("first_collected", match tr with
                       | none => .vNull
                       | some _ => match minTimestamp cs with
                                   | some t => .vInt t
                                   | none => match minTimestamp vs with
                                             | some t => .vInt t
                                             | none => .vNull)]

/-! ### The Firestore backend (`firestore_db.py` + `FirestoreAdapter`) -/

/-- An `aggregated_data` document (written with `merge=True`, so every
counter field may be absent). -/
structure AggDoc where
  repo : String
  last_updated : Option Int
  total_clones : Option Int
  unique_clones : Option Int
  total_views : Option Int
  unique_views : Option Int
deriving DecidableEq, Repr

/-- The Firestore collections read by `FirestoreAdapter`: traffic
documents carry the same `{repo, timestamp, count, uniques}` fields as
the SQLite rows (the document id is `repo_timestamp`).  The backend has
no star collection. -/
structure FsState where
  clone_history : List HistoryRow
  view_history : List HistoryRow
  aggregated_data : List AggDoc
deriving DecidableEq, Repr

/-- `ORDER BY timestamp` for the Firestore history streams. -/
def tsLe (a b : HistoryRow) : Prop := a.timestamp ≤ b.timestamp

instance : DecidableRel tsLe := fun a b => (inferInstance : Decidable (a.timestamp ≤ b.timestamp))

/-- `FirestoreDatabaseManager.get_clone_history`: filters on the repo and
on `timestamp >= cutoff`, where the cutoff is always the current UTC
midnight (`todayStart`) — the `days` argument is accepted but never used
when computing the cutoff. -/
def fsGetCloneHistory (fs : FsState) (todayStart : Int) (repo : String) (days : Int) : List HistoryRow :=
  ((fs.clone_history.filter
      (fun r => r.repo == repo && decide (todayStart ≤ r.timestamp))).insertionSort tsLe)

/-- `FirestoreDatabaseManager.get_view_history` (same cutoff behaviour). -/
def fsGetViewHistory (fs : FsState) (todayStart : Int) (repo : String) (days : Int) : List HistoryRow :=
  ((fs.view_history.filter
      (fun r => r.repo == repo && decide (todayStart ≤ r.timestamp))).insertionSort tsLe)

/-- `FirestoreDatabaseManager.get_aggregated_data`: the
`aggregated_data` document whose id is the repo name, if it exists. -/
def fsGetAggregatedData (fs : FsState) (repo : String) : Option AggDoc :=
  fs.aggregated_data.find? (fun d => d.repo == repo)

/-- `agg_data.get(field, 0)` with `agg_data = {}` when no document. -/
def aggGetInt (agg : Option AggDoc) (f : AggDoc → Option Int) : Int :=
  match agg with
  | none => 0
  | some d => (f d).getD 0

/-- `FirestoreAdapter.get_stats_for_repo`: totals are summed client-side
over the (midnight-cut) histories, the trailing-window fields are taken
from the `aggregated_data` document, and the dictionary has no
`first_collected` key. -/
def fsGetStatsForRepo (fs : FsState) (todayStart : Int) (repo_name : String) : List (String × Val) :=
  let agg := fsGetAggregatedData fs repo_name
  let ch := fsGetCloneHistory fs todayStart repo_name 9999
  let vh := fsGetViewHistory fs todayStart repo_name 9999
  [("repo", .vStr repo_name),
   ("total_clones", .vInt (sumCount ch)),
   ("total_unique_clones", .vInt (sumUniques ch)),
   ("total_views", .vInt (sumCount vh)),
   ("total_unique_views", .vInt (sumUniques vh)),
   ("last_14_days_clones", .vInt (aggGetInt agg (·.total_clones))),
   ("last_14_days_unique_clones", .vInt (aggGetInt agg (·.unique_clones))),
   ("last_14_days_views", .vInt (aggGetInt agg (·.total_views))),
   ("last_14_days_unique_views", .vInt (aggGetInt agg (·.unique_views))),
   ("last_updated", match agg with
                    | none => .vNull
                    | some d => match d.last_updated with
                                | none => .vNull
                                | some t => .vInt t)]

/-! ### The record factory (`models.py`) at the Python-value level

`CloneRecord.from_github_entry` is `cls(entry["count"], entry["timestamp"],
entry["uniques"])`: a plain dict subscript per field and no validation of
any kind, so it is modelled over raw Python values. -/

/-- A raw Python value occurring in a GitHub API entry. -/
inductive PyVal where
  | pInt (n : Int)
  | pStr (s : String)
  | pNone
deriving DecidableEq, Repr

/-- The exception raised by a failing dict subscript. -/
inductive PyKeyErr where
  | keyError (k : String)
deriving DecidableEq, Repr

instance {ε α : Type} [DecidableEq ε] [DecidableEq α] : DecidableEq (Except ε α) := fun x y =>
  match x, y with
  | .ok a, .ok b =>
      if h : a = b then .isTrue (by rw [h])
      else .isFalse (by intro hc; injection hc; contradiction)
  | .error a, .error b =>
      if h : a = b then .isTrue (by rw [h])
      else .isFalse (by intro hc; injection hc; contradiction)
  | .ok _, .error _ => .isFalse (by intro hc; exact Except.noConfusion hc)
  | .error _, .ok _ => .isFalse (by intro hc; exact Except.noConfusion hc)

/-- `entry[k]`: Python's dict subscript, raising `KeyError` when absent. -/
def dictGetItem (entry : List (String × PyVal)) (k : String) : Except PyKeyErr PyVal :=
  match entry.lookup k with
  | some v => .ok v
  | none => .error (.keyError k)

/-- A `CloneRecord` as the Python dataclass actually stores it: the three
fields hold whatever values the entry supplied, with no type coercion. -/
structure PyCloneRecord where
  count : PyVal
  timestamp : PyVal
  uniques : PyVal
deriving DecidableEq, Repr

/-- `CloneRecord.from_github_entry`: `cls(entry["count"],
entry["timestamp"], entry["uniques"])` — the subscripts are evaluated
left to right and the record is built from the raw values. -/
def PyCloneRecord.from_github_entry (entry : List (String × PyVal)) : Except PyKeyErr PyCloneRecord := do
  let c ← dictGetItem entry "count"
  let t ← dictGetItem entry "timestamp"
  let u ← dictGetItem entry "uniques"
  pure ⟨c, t, u⟩

/-- A `ViewRecord` at the Python-value level. -/
structure PyViewRecord where
  count : PyVal
  timestamp : PyVal
  uniques : PyVal
deriving DecidableEq, Repr

/-- `ViewRecord.from_github_entry` — textually identical to the clone
factory. -/
def PyViewRecord.from_github_entry (entry : List (String × PyVal)) : Except PyKeyErr PyViewRecord := do
  let c ← dictGetItem entry "count"
  let t ← dictGetItem entry "timestamp"
  let u ← dictGetItem entry "uniques"
  pure ⟨c, t, u⟩

/-! ### The tracker (`GitHubStatsTracker`) and `run_sync` -/

/-- The credential/identity configuration of `GitHubStatsTracker`:
`github_username` from configuration, `github_org` from the
`GITHUB_ORG` environment variable (absent when unset). -/
structure TrackerConfig where
  github_username : String
  github_org : Option String
deriving DecidableEq, Repr

/-- `GitHubStatsTracker._get_repo_path`: a name already containing `'/'`
is used verbatim; otherwise the owner is the configured organization for
`owner_type == 'org'` (falling back, with a warning, to the username when
`GITHUB_ORG` is unset or empty — both are falsy), and the username
otherwise. -/
def get_repo_path (cfg : TrackerConfig) (repo_name : String) (owner_type : String) : String :=
  if repo_name.data.any (fun c => c == '/') then repo_name
  else
    let owner :=
      if owner_type = "org" then
        match cfg.github_org with
        | none => cfg.github_username
        | some org => if org = "" then cfg.github_username else org
      else cfg.github_username
    owner ++ "/" ++ repo_name

/-- A Python exception escaping a per-repository update. -/
inductive PyErr where
  | requestException (msg : String)
  | nameError (name : String)
deriving DecidableEq, Repr

/-- The upstream oracles of one sync cycle: for a given repository path
they yield the normalized clone records, view records and star count, or
the exception the fetch/parse raised.  (These stand for
`_fetch_clone_data` + entry conversion, `_fetch_view_data` + conversion,
and `_fetch_repo_metadata` + `metadata.get("stargazers_count", 0)`.) -/
structure Fetchers where
  clones : String → Except PyErr (List CloneRecord)
  views : String → Except PyErr (List ViewRecord)
  stargazers : String → Except PyErr Int
deriving Inhabited

/-- `GitHubStatsTracker._update_repository`: fetch and upsert the clone
records, then the view records, then the star count, then set the repo's
`last_sync`.  Writes committed before a failing step persist (SQLite
commits each statement batch); the raised exception is returned alongside
the state. -/
def update_repository (cfg : TrackerConfig) (f : Fetchers) (st : DbState) (now : Int)
    (repo : String) (owner_type : String) : DbState × Option PyErr :=
  match f.clones (get_repo_path cfg repo owner_type) with
  | .error e => (st, some e)
  | .ok cloneRecs =>
    let st1 := upsert_clone_records st repo cloneRecs
    match f.views (get_repo_path cfg repo owner_type) with
    | .error e => (st1, some e)
    | .ok viewRecs =>
      let st2 := upsert_view_records st1 repo viewRecs
      match f.stargazers (get_repo_path cfg repo owner_type) with
      | .error e => (st2, some e)
      | .ok stars =>
        let st3 := update_repo_stars st2 repo stars now
        (update_tracked_repo st3 repo now, none)

/-- The repository loop of `update_all_repositories`.  When a
repository's update raises, the `except` handler evaluates
`f"Failed to update {repo}: {e}"`, but `repo` is not a bound name in that
function (the loop variable is `repo_info`), so the handler itself raises
`NameError`, which escapes the loop before the `continue` is reached. -/
def update_all_repositories_go (cfg : TrackerConfig) (f : Fetchers) (now : Int) :
    List RepoInfo → DbState → DbState × Option PyErr
  | [], st => (st, none)
  | info :: rest, st =>
    match update_repository cfg f st now info.repo_name info.owner_type with
    | (st1, none) => update_all_repositories_go cfg f now rest st1
    | (st1, some _) => (st1, some (.nameError "repo"))

/-- `GitHubStatsTracker.update_all_repositories`: iterates over the
tracked repos (or, when none are tracked, over the legacy configured
list). -/
def update_all_repositories (cfg : TrackerConfig) (f : Fetchers) (st : DbState) (now : Int)
    (legacyRepos : List String) : DbState × Option PyErr :=
  let tracked := get_tracked_repos st
  let repos := if tracked.isEmpty then legacyRepos.map (fun r => ⟨r, "user"⟩) else tracked
  update_all_repositories_go cfg f now repos st

/-- The single-quote character, used by Python's `str(NameError(...))`. -/
def singleQuote : String := String.mk [Char.ofNat 39]

/-- `str(e)` for the exceptions of this model. -/
def pyErrStr : PyErr → String
  | .requestException m => m
  | .nameError n => "name " ++ singleQuote ++ n ++ singleQuote ++ " is not defined"

/-- `run_sync` (package `app.py`): configuration errors surface as
`(False, message)`; otherwise one batch update runs (the configured
legacy repo list is empty there) and the cycle reports
`(True, "Sync successful")` only when no exception escaped the batch. -/
def run_sync (github_token github_username github_org : Option String)
    (f : Fetchers) (st : DbState) (now : Int) : Bool × String × DbState :=
  match github_token with
  | none => (false, "GITHUB_TOKEN environment variable not set.", st)
  | some _ =>
    match github_username with
    | none => (false, "GITHUB_USERNAME environment variable not set.", st)
    | some username =>
      match update_all_repositories ⟨username, github_org⟩ f st now [] with
      | (st1, none) => (true, "Sync successful", st1)
      | (st1, some e) => (false, pyErrStr e, st1)

/-! ### Derived state transformers and concrete instances used in the theorems -/

/-- What one `tracked_repos` row becomes after an export/import round
trip: `last_sync` is lost (never exported) and `owner_type` reverts to
the column default `'user'` (exported but dropped by the import insert). -/
def trackedReimport (r : TrackedRepoRow) : TrackedRepoRow :=
  ⟨r.repo_name, r.added_at, r.is_active, none, "user"⟩

/-- 2024-01-01T00:00:00Z as seconds since the epoch. -/
def day20240101 : Int := 1704067200

/-- A store already holding a clone day-record and a view day-record for
2024-01-01 (counts 5, uniques 3), as in the upsert-wins example. -/
def stC1 : DbState :=
  ⟨[⟨"owner/repo", day20240101, 5, 3⟩], [⟨"owner/repo", day20240101, 5, 3⟩], [], []⟩

/-- Three tracked repositories, never synced. -/
def dbC2 : DbState :=
  ⟨[], [],
   [⟨"r1", 0, 1, none, "user"⟩, ⟨"r2", 0, 1, none, "user"⟩, ⟨"r3", 0, 1, none, "user"⟩],
   []⟩

/-- Upstream oracles for the batch-isolation scenario: repository 2's
fetch raises; every other repository yields one clone record, no view
records and 7 stars. -/
def fetchersC2 : Fetchers :=
  { clones := fun path =>
      if path == "u/r2" then .error (.requestException "403 Forbidden")
      else .ok [⟨1, 100, 1⟩]
    views := fun _ => .ok []
    stargazers := fun _ => .ok 7 }

/-- A SQLite store holding one tracked repo `"r"` with one old clone
record, a star snapshot and a sync timestamp. -/
def stC4 : DbState :=
  ⟨[⟨"r", 100, 5, 3⟩], [], [⟨"r", 0, 1, some 500, "user"⟩], [⟨"r", 10, 500⟩]⟩

/-- The same logical traffic data loaded into the Firestore collections
(the document backend has no star collection, and nothing has written
`aggregated_data`). -/
def fsC4 : FsState := ⟨[⟨"r", 100, 5, 3⟩], [], []⟩

/-- A source store whose only tracked repo has a recorded `last_sync`. -/
def srcC6 : DbState := ⟨[], [], [⟨"a", 0, 1, some 5, "user"⟩], []⟩

/-- A richer source store with distinct primary keys in every table. -/
def srcC6b : DbState :=
  ⟨[⟨"b", 200, 4, 2⟩, ⟨"a", 100, 7, 3⟩],
   [⟨"a", 100, 9, 6⟩],
   [⟨"b", 0, 1, some 300, "org"⟩, ⟨"a", 0, 1, none, "user"⟩],
   [⟨"a", 11, 300⟩]⟩

/-- A store holding one clone row, one view row, a tracked repo and a
star row, for exercising the import semantics. -/
def stC8 : DbState :=
  ⟨[⟨"a", 100, 5, 3⟩], [⟨"a", 100, 2, 1⟩],
   [⟨"a", 0, 1, some 300, "org"⟩], [⟨"a", 9, 300⟩]⟩

/-- An import snapshot colliding with `stC8` on the history key
`("a", 100)` and on the tracked/star keys, plus a fresh history row. -/
def dC8 : ExportData :=
  { export_timestamp := 0
    version := "1.0"
    clone_history := [⟨"a", 100, 50, 30⟩, ⟨"b", 200, 6, 4⟩]
    view_history := [⟨"a", 100, 20, 10⟩, ⟨"b", 200, 8, 5⟩]
    tracked_repos := [⟨"a", 42, 0, "org"⟩]
    repo_stars := [⟨"a", 77, 400⟩] }

/-- A store tracking `"proj"` (currently inactive) with an original
`added_at`, a recorded `last_sync` and an `org` owner type. -/
def stC10 : DbState := ⟨[], [], [⟨"proj", 1, 0, some 7, "org"⟩], []⟩

/-- A configuration with both an individual owner and an organization. -/
def cfgC9 : TrackerConfig := ⟨"alice", some "acme"⟩

/-- A configuration with no organization set. -/
def cfgC9b : TrackerConfig := ⟨"alice", none⟩

/-! ### Generic lemmas about the keyed-table primitives -/

section TableLemmas

variable {α κ : Type} [BEq κ] [LawfulBEq κ] (key : α → κ)

theorem beqComm (a b : κ) : (a == b) = (b == a) := by
  cases h : a == b
  · cases h2 : b == a
    · rfl
    · exact absurd (eq_of_beq h2).symm (by simpa using h)
  · have := eq_of_beq h
    subst this
    simp

theorem rowsBy_replaceBy_self (t : List α) (r : α) :
    rowsBy key (replaceBy key t r) (key r) = [r] := by
  unfold rowsBy replaceBy
  rw [List.filter_append, List.filter_filter]
  have h1 : (t.filter fun row => (key row == key r) && (key row != key r)) = [] := by
    apply List.filter_eq_nil_iff.mpr
    intro a _
    cases h : key a == key r <;> simp [bne, h]
  rw [h1]
  simp

theorem rowsBy_replaceBy_ne (t : List α) (r : α) (k : κ) (h : (key r == k) = false) :
    rowsBy key (replaceBy key t r) k = rowsBy key t k := by
  unfold rowsBy replaceBy
  rw [List.filter_append, List.filter_filter]
  have h2 : (List.filter (fun row => key row == k) [r]) = [] := by
    simp only [List.filter, h]
  rw [h2, List.append_nil]
  apply List.filter_congr
  intro a _
  by_cases hak : key a = k
  · have hne : (key a == key r) = false := by
      apply beq_eq_false_iff_ne.mpr
      intro he
      rw [← he, hak] at h
      simp at h
    subst hak
    simp [bne, hne]
  · simp [beq_eq_false_iff_ne.mpr hak]

theorem rowsBy_foldl_replaceBy_of_not_mem (l : List α) (t : List α) (k : κ)
    (h : ∀ x ∈ l, (key x == k) = false) :
    rowsBy key (l.foldl (replaceBy key) t) k = rowsBy key t k := by
  induction l generalizing t with
  | nil => rfl
  | cons x l ih =>
    rw [List.foldl_cons, ih _ (fun y hy => h y (List.mem_cons_of_mem x hy)),
      rowsBy_replaceBy_ne key t x k (h x (List.mem_cons_self x l))]

theorem rowsBy_foldl_replaceBy_mem (l : List α) (t : List α) (e : α)
    (hn : (l.map key).Nodup) (he : e ∈ l) :
    rowsBy key (l.foldl (replaceBy key) t) (key e) = [e] := by
  induction l generalizing t with
  | nil => cases he
  | cons x l ih =>
    rw [List.foldl_cons]
    have hn' : (l.map key).Nodup := (List.nodup_cons.mp (by simpa using hn)).2
    cases List.mem_cons.mp he with
    | inl hex =>
      subst hex
      have hxl : key e ∉ l.map key := (List.nodup_cons.mp (by simpa using hn)).1
      rw [rowsBy_foldl_replaceBy_of_not_mem key l _ (key e)
        (fun y hy => beq_eq_false_iff_ne.mpr (fun hc => hxl (hc ▸ List.mem_map_of_mem key hy)))]
      exact rowsBy_replaceBy_self key t e
    | inr hel => exact ih _ hn' hel

theorem containsBy_insertIgnoreBy (t : List α) (r : α) (k : κ)
    (h : containsBy key t k = true) :
    containsBy key (insertIgnoreBy key t r) k = true := by
  unfold insertIgnoreBy
  split
  · exact h
  · unfold containsBy at h ⊢
    rw [List.any_append, h]
    rfl

theorem containsBy_insertIgnoreBy_self (t : List α) (r : α) :
    containsBy key (insertIgnoreBy key t r) (key r) = true := by
  unfold insertIgnoreBy
  split
  · assumption
  · unfold containsBy
    rw [List.any_append]
    simp

theorem rowsBy_insertIgnoreBy_of_contains (t : List α) (r : α) (k : κ)
    (h : containsBy key t k = true) :
    rowsBy key (insertIgnoreBy key t r) k = rowsBy key t k := by
  unfold insertIgnoreBy
  split
  · rfl
  · rename_i hnc
    have hrk : (key r == k) = false := by
      cases hx : key r == k
      · rfl
      · exact absurd (eq_of_beq hx ▸ h) hnc
    unfold rowsBy
    rw [List.filter_append]
    have h2 : (List.filter (fun row => key row == k) [r]) = [] := by
      simp only [List.filter, hrk]
    rw [h2, List.append_nil]

theorem containsBy_foldl_insertIgnoreBy (l : List α) (t : List α) (k : κ)
    (h : containsBy key t k = true) :
    containsBy key (l.foldl (insertIgnoreBy key) t) k = true := by
  induction l generalizing t with
  | nil => exact h
  | cons x l ih => exact List.foldl_cons .. ▸ ih _ (containsBy_insertIgnoreBy key t x k h)

theorem rowsBy_foldl_insertIgnoreBy_of_contains (l : List α) (t : List α) (k : κ)
    (h : containsBy key t k = true) :
    rowsBy key (l.foldl (insertIgnoreBy key) t) k = rowsBy key t k := by
  induction l generalizing t with
  | nil => rfl
  | cons x l ih =>
    rw [List.foldl_cons, ih _ (containsBy_insertIgnoreBy key t x k h),
      rowsBy_insertIgnoreBy_of_contains key t x k h]

theorem containsBy_foldl_insertIgnoreBy_mem (l : List α) (t : List α) (e : α)
    (he : e ∈ l) :
    containsBy key (l.foldl (insertIgnoreBy key) t) (key e) = true := by
  induction l generalizing t with
  | nil => cases he
  | cons x l ih =>
    rw [List.foldl_cons]
    cases List.mem_cons.mp he with
    | inl hex =>
      subst hex
      exact containsBy_foldl_insertIgnoreBy key l _ (key e)
        (containsBy_insertIgnoreBy_self key t e)
    | inr hel => exact ih _ hel

theorem foldl_insertIgnoreBy_disjoint (l : List α) (t : List α)
    (hd : ∀ r ∈ l, containsBy key t (key r) = false) (hn : (l.map key).Nodup) :
    l.foldl (insertIgnoreBy key) t = t ++ l := by
  induction l generalizing t with
  | nil => simp
  | cons x l ih =>
    rw [List.foldl_cons]
    have hx : containsBy key t (key x) = false := hd x (List.mem_cons_self x l)
    have hstep : insertIgnoreBy key t x = t ++ [x] := by
      unfold insertIgnoreBy
      rw [hx]
      rfl
    have hxl : key x ∉ l.map key := (List.nodup_cons.mp (by simpa using hn)).1
    rw [hstep, ih]
    · simp
    · intro r hr
      unfold containsBy at hd ⊢
      rw [List.any_append]
      have h1 : t.any (fun row => key row == key r) = false := hd r (List.mem_cons_of_mem x hr)
      have h2 : (key x == key r) = false :=
        beq_eq_false_iff_ne.mpr (fun hc => hxl (hc ▸ List.mem_map_of_mem key hr))
      simp [h1, h2]
    · exact (List.nodup_cons.mp (by simpa using hn)).2

theorem foldl_replaceBy_disjoint (l : List α) (t : List α)
    (hd : ∀ r ∈ l, containsBy key t (key r) = false) (hn : (l.map key).Nodup) :
    l.foldl (replaceBy key) t = t ++ l := by
  induction l generalizing t with
  | nil => simp
  | cons x l ih =>
    rw [List.foldl_cons]
    have hx : containsBy key t (key x) = false := hd x (List.mem_cons_self x l)
    have hstep : replaceBy key t x = t ++ [x] := by
      unfold replaceBy
      have : t.filter (fun row => key row != key x) = t := by
        apply List.filter_eq_self.mpr
        intro a ha
        unfold containsBy at hx
        have : (key a == key x) = false := by
          cases hc : key a == key x
          · rfl
          · have hta : (t.any fun row => key row == key x) = true :=
              List.any_eq_true.mpr ⟨a, ha, hc⟩
            rw [hta] at hx
            cases hx
        simp [bne, this]
      rw [this]
    have hxl : key x ∉ l.map key := (List.nodup_cons.mp (by simpa using hn)).1
    rw [hstep, ih]
    · simp
    · intro r hr
      unfold containsBy at hd ⊢
      rw [List.any_append]
      have h1 : t.any (fun row => key row == key r) = false := hd r (List.mem_cons_of_mem x hr)
      have h2 : (key x == key r) = false :=
        beq_eq_false_iff_ne.mpr (fun hc => hxl (hc ▸ List.mem_map_of_mem key hr))
      simp [h1, h2]
    · exact (List.nodup_cons.mp (by simpa using hn)).2

theorem mem_foldl_replaceBy (l : List α) (t : List α) (r : α)
    (h : r ∈ l.foldl (replaceBy key) t) :
    r ∈ t ∨ l.any (fun x => key x == key r) = true := by
  induction l generalizing t with
  | nil => exact Or.inl h
  | cons x l ih =>
    rw [List.foldl_cons] at h
    cases ih _ h with
    | inl hrt =>
      unfold replaceBy at hrt
      cases List.mem_append.mp hrt with
      | inl hf => exact Or.inl (List.mem_filter.mp hf).1
      | inr hx =>
        right
        have : r = x := by simpa using hx
        subst this
        simp [List.any_cons]
    | inr hl =>
      right
      rw [List.any_cons, hl]
      simp

theorem foldl_replaceBy_eq_filter_append (l : List α) (t : List α) :
    l.foldl (replaceBy key) t
      = t.filter (fun r => !(l.any (fun x => key x == key r))) ++ l.foldl (replaceBy key) [] := by
  induction l generalizing t with
  | nil =>
    simp only [List.foldl_nil, List.any_nil, Bool.not_false, List.append_nil]
    exact (List.filter_eq_self.mpr (fun a _ => rfl)).symm
  | cons x l ih =>
    rw [List.foldl_cons, List.foldl_cons, ih (replaceBy key t x), ih (replaceBy key [] x)]
    have hx : replaceBy key [] x = [x] := rfl
    rw [hx]
    unfold replaceBy
    rw [List.filter_append, List.filter_filter, List.append_assoc]
    have hcongr : t.filter (fun a => (!l.any fun x_1 => key x_1 == key a) && (key a != key x))
        = t.filter (fun r => !(x :: l).any fun x_1 => key x_1 == key r) := by
      apply List.filter_congr
      intro a _
      rw [List.any_cons, Bool.not_or, bne, beqComm (key a) (key x), Bool.and_comm]
    rw [hcongr]

theorem foldl_replaceBy_idem (l : List α) (t : List α) :
    l.foldl (replaceBy key) (l.foldl (replaceBy key) t) = l.foldl (replaceBy key) t := by
  rw [foldl_replaceBy_eq_filter_append key l (l.foldl (replaceBy key) t),
    foldl_replaceBy_eq_filter_append key l t, List.filter_append, List.filter_filter]
  have h1 : (t.filter fun a =>
      (!l.any fun x => key x == key a) && (!l.any fun x => key x == key a))
      = t.filter (fun r => !(l.any fun x => key x == key r)) := by
    apply List.filter_congr
    intro a _
    rw [Bool.and_self]
  have h2 : ((l.foldl (replaceBy key) []).filter
      (fun r => !(l.any fun x => key x == key r))) = [] := by
    apply List.filter_eq_nil_iff.mpr
    intro a ha
    cases mem_foldl_replaceBy key l [] a ha with
    | inl h => cases h
    | inr h => simp [h]
  rw [h1, h2, List.append_nil]

end TableLemmas

/-! ### Permutation invariance of the aggregates, and sorting lemmas -/

instance : LeftCommutative minStep := by
  constructor
  intro a b c
  cases c with
  | none => simp [minStep, min_comm]
  | some m => simp [minStep, min_left_comm]

theorem minTimestamp_perm {l1 l2 : List HistoryRow} (h : l1.Perm l2) :
    minTimestamp l1 = minTimestamp l2 := by
  unfold minTimestamp
  exact @List.Perm.foldr_eq Int (Option Int) minStep _ _ _ (h.map (·.timestamp)) none

theorem sumCount_perm {l1 l2 : List HistoryRow} (h : l1.Perm l2) :
    sumCount l1 = sumCount l2 := by
  unfold sumCount
  exact (h.map (·.count)).sum_eq

theorem sumUniques_perm {l1 l2 : List HistoryRow} (h : l1.Perm l2) :
    sumUniques l1 = sumUniques l2 := by
  unfold sumUniques
  exact (h.map (·.uniques)).sum_eq

theorem sumCountRecent_perm {l1 l2 : List HistoryRow} (h : l1.Perm l2) (now : Int) :
    sumCountRecent l1 now = sumCountRecent l2 now := by
  unfold sumCountRecent
  exact (h.map _).sum_eq

theorem sumUniquesRecent_perm {l1 l2 : List HistoryRow} (h : l1.Perm l2) (now : Int) :
    sumUniquesRecent l1 now = sumUniquesRecent l2 now := by
  unfold sumUniquesRecent
  exact (h.map _).sum_eq

theorem rowsFor_perm {l1 l2 : List HistoryRow} (h : l1.Perm l2) (repo : String) :
    (rowsFor l1 repo).Perm (rowsFor l2 repo) := by
  unfold rowsFor
  exact h.filter _

theorem orderedInsert_map {α β : Type} (r : β → β → Prop) [DecidableRel r]
    (r2 : α → α → Prop) [DecidableRel r2] (g : α → β)
    (hc : ∀ a b, r (g a) (g b) ↔ r2 a b) (a : α) (l : List α) :
    (l.map g).orderedInsert r (g a) = (l.orderedInsert r2 a).map g := by
  induction l with
  | nil => rfl
  | cons b l ih =>
    simp only [List.map_cons, List.orderedInsert]
    by_cases hr : r2 a b
    · rw [if_pos ((hc a b).mpr hr), if_pos hr, List.map_cons, List.map_cons]
    · rw [if_neg (fun hx => hr ((hc a b).mp hx)), if_neg hr, List.map_cons, ih]

theorem insertionSort_map {α β : Type} (r : β → β → Prop) [DecidableRel r]
    (r2 : α → α → Prop) [DecidableRel r2] (g : α → β)
    (hc : ∀ a b, r (g a) (g b) ↔ r2 a b) (l : List α) :
    (l.map g).insertionSort r = (l.insertionSort r2).map g := by
  induction l with
  | nil => rfl
  | cons a l ih =>
    simp only [List.map_cons, List.insertionSort, ih]
    exact orderedInsert_map r r2 g hc a (l.insertionSort r2)

/-! ### The export/import round trip at the state level -/

theorem roundtrip_state (st : DbState) (tExp : Int)
    (hc : (st.clone_history.map hKey).Nodup)
    (hv : (st.view_history.map hKey).Nodup)
    (ht : (st.tracked_repos.map TrackedRepoRow.repo_name).Nodup)
    (hs : (st.repo_stars.map RepoStarsRow.repo).Nodup) :
    import_database emptyDb true (export_database st tExp)
      = ⟨st.clone_history.insertionSort histLe, st.view_history.insertionSort histLe,
         st.tracked_repos.map trackedReimport, st.repo_stars⟩ := by
  have hclone : (st.clone_history.insertionSort histLe).foldl insertIgnoreHistory
      ([] : List HistoryRow) = st.clone_history.insertionSort histLe := by
    have hn : ((st.clone_history.insertionSort histLe).map hKey).Nodup :=
      (((List.perm_insertionSort histLe st.clone_history).map hKey).symm).nodup hc
    have := foldl_insertIgnoreBy_disjoint hKey (st.clone_history.insertionSort histLe)
      [] (fun r _ => rfl) hn
    simpa using this
  have hview : (st.view_history.insertionSort histLe).foldl insertIgnoreHistory
      ([] : List HistoryRow) = st.view_history.insertionSort histLe := by
    have hn : ((st.view_history.insertionSort histLe).map hKey).Nodup :=
      (((List.perm_insertionSort histLe st.view_history).map hKey).symm).nodup hv
    have := foldl_insertIgnoreBy_disjoint hKey (st.view_history.insertionSort histLe)
      [] (fun r _ => rfl) hn
    simpa using this
  have hmaps : (st.tracked_repos.map exportTrackedRow).map importedTrackedRow
      = st.tracked_repos.map trackedReimport := by
    rw [List.map_map]
    rfl
  have htr : ((st.tracked_repos.map exportTrackedRow).map importedTrackedRow).foldl
      replaceIntoTracked ([] : List TrackedRepoRow) = st.tracked_repos.map trackedReimport := by
    rw [hmaps]
    have hn : ((st.tracked_repos.map trackedReimport).map TrackedRepoRow.repo_name).Nodup := by
      rw [List.map_map]
      exact ht
    have := foldl_replaceBy_disjoint TrackedRepoRow.repo_name
      (st.tracked_repos.map trackedReimport) [] (fun r _ => rfl) hn
    simpa using this
  have hstars : st.repo_stars.foldl replaceIntoStars ([] : List RepoStarsRow)
      = st.repo_stars := by
    have := foldl_replaceBy_disjoint RepoStarsRow.repo st.repo_stars [] (fun r _ => rfl) hs
    simpa using this
  show (⟨(st.clone_history.insertionSort histLe).foldl insertIgnoreHistory [],
         (st.view_history.insertionSort histLe).foldl insertIgnoreHistory [],
         ((st.tracked_repos.map exportTrackedRow).map importedTrackedRow).foldl
           replaceIntoTracked [],
         st.repo_stars.foldl replaceIntoStars []⟩ : DbState) = _
  rw [hclone, hview, htr, hstars]

theorem summaryFor_reimport (st : DbState) (now : Int) (tr : TrackedRepoRow) :
    summaryFor
        ⟨st.clone_history.insertionSort histLe, st.view_history.insertionSort histLe,
         st.tracked_repos.map trackedReimport, st.repo_stars⟩ now (trackedReimport tr)
      = { summaryFor st now tr with last_updated := none } := by
  have hcp : (rowsFor (st.clone_history.insertionSort histLe) tr.repo_name).Perm
      (rowsFor st.clone_history tr.repo_name) :=
    rowsFor_perm (List.perm_insertionSort histLe st.clone_history) tr.repo_name
  have hvp : (rowsFor (st.view_history.insertionSort histLe) tr.repo_name).Perm
      (rowsFor st.view_history tr.repo_name) :=
    rowsFor_perm (List.perm_insertionSort histLe st.view_history) tr.repo_name
  simp only [summaryFor, trackedReimport]
  rw [sumCount_perm hcp, sumUniques_perm hcp, sumCount_perm hvp, sumUniques_perm hvp,
    sumCountRecent_perm hcp, sumUniquesRecent_perm hcp, sumCountRecent_perm hvp,
    sumUniquesRecent_perm hvp, minTimestamp_perm hcp, minTimestamp_perm hvp]

theorem summaries_of_reimport (st : DbState) (now : Int) :
    get_all_repos_summary
        ⟨st.clone_history.insertionSort histLe, st.view_history.insertionSort histLe,
         st.tracked_repos.map trackedReimport, st.repo_stars⟩ now
      = (get_all_repos_summary st now).map (fun s => { s with last_updated := none }) := by
  unfold get_all_repos_summary
  have h1 : ((st.tracked_repos.map trackedReimport).filter (fun r => r.is_active == 1))
      = (st.tracked_repos.filter (fun r => r.is_active == 1)).map trackedReimport := by
    rw [List.filter_map]
    rfl
  rw [h1]
  rw [insertionSort_map trackedLe trackedLe trackedReimport (fun a b => Iff.rfl)
    (st.tracked_repos.filter (fun r => r.is_active == 1))]
  rw [List.map_map, List.map_map]
  apply List.map_congr_left
  intro tr _
  exact summaryFor_reimport st now tr

/-! ### The claims -/

/-- C1: `merge_write_records` is an upsert keyed by
`(repository_id, day, kind)`: for every stored state containing a record
under a key and every incoming record with the same key, merge-writing
the incoming record (for either kind — the clone and view tables
separate the kinds) leaves exactly one record under that key, holding
the incoming `count` and `uniques`; the old values are not retained and
no duplicate row appears. -/
theorem merge_write_upsert_keyed (st : DbState) (repo : String)
    (c : CloneRecord) (v : ViewRecord)
    (hc : containsKey st.clone_history (repo, c.timestamp) = true)
    (hv : containsKey st.view_history (repo, v.timestamp) = true) :
    rowsWithKey (upsert_clone_records st repo [c]).clone_history (repo, c.timestamp)
        = [cloneRow repo c]
    ∧ rowsWithKey (upsert_view_records st repo [v]).view_history (repo, v.timestamp)
        = [viewRow repo v] := by
  constructor
  · have h1 : (upsert_clone_records st repo [c]).clone_history
        = replaceIntoHistory st.clone_history (cloneRow repo c) := rfl
    rw [h1]
    exact rowsBy_replaceBy_self hKey st.clone_history (cloneRow repo c)
  · have h1 : (upsert_view_records st repo [v]).view_history
        = replaceIntoHistory st.view_history (viewRow repo v) := rfl
    rw [h1]
    exact rowsBy_replaceBy_self hKey st.view_history (viewRow repo v)

/-- C1 witness: on a store holding `(repo, 2024-01-01, count=5,
uniques=3)` records, merge-writing `(count=8, uniques=4)` for the same
day leaves exactly the incoming record. -/
theorem merge_write_upsert_keyed_witness :
    containsKey stC1.clone_history ("owner/repo", day20240101) = true
    ∧ containsKey stC1.view_history ("owner/repo", day20240101) = true
    ∧ (rowsWithKey (upsert_clone_records stC1 "owner/repo"
          [⟨8, day20240101, 4⟩]).clone_history ("owner/repo", day20240101)
        = [⟨"owner/repo", day20240101, 8, 4⟩]
      ∧ rowsWithKey (upsert_view_records stC1 "owner/repo"
          [⟨8, day20240101, 4⟩]).view_history ("owner/repo", day20240101)
        = [⟨"owner/repo", day20240101, 8, 4⟩]) :=
  ⟨by decide, by decide,
   merge_write_upsert_keyed stC1 "owner/repo" ⟨8, day20240101, 4⟩ ⟨8, day20240101, 4⟩
     (by decide) (by decide)⟩

/-- C2 (code behaviour at the claim's failing input): with three tracked
repositories where repository 2's fetch raises, the batch loop's `except`
handler itself raises `NameError` (`repo` is unbound there — the loop
variable is `repo_info`), so `run_sync` returns `succeeded=false` with
the `NameError` message, repository 1 has an updated `last_sync` and
repositories 2 and 3 do not — repository 3 is never attempted, contrary
to the claim. -/
theorem run_sync_batch_aborts_on_failure :
    run_sync (some "token") (some "u") none fetchersC2 dbC2 999
      = (false, pyErrStr (.nameError "repo"),
         ⟨[⟨"r1", 100, 1, 1⟩], [],
          [⟨"r1", 0, 1, some 999, "user"⟩, ⟨"r2", 0, 1, none, "user"⟩,
           ⟨"r3", 0, 1, none, "user"⟩],
          [⟨"r1", 7, 999⟩]⟩) := by
  decide

/-- C3 counterexample: the factory happily constructs a record with
`uniques = 5 > count = 1`, and accepts values of the wrong shape — no
`MalformedRecord` failure exists anywhere in the code. -/
theorem from_github_entry_no_validation :
    PyCloneRecord.from_github_entry
        [("count", .pInt 1), ("timestamp", .pStr "2024-01-01T00:00:00Z"), ("uniques", .pInt 5)]
      = .ok ⟨.pInt 1, .pStr "2024-01-01T00:00:00Z", .pInt 5⟩
    ∧ PyCloneRecord.from_github_entry
        [("count", .pStr "not-a-number"), ("timestamp", .pNone), ("uniques", .pStr "x")]
      = .ok ⟨.pStr "not-a-number", .pNone, .pStr "x"⟩ := by
  exact ⟨rfl, rfl⟩

/-- C3 (amended): the record factories raise `KeyError` (there is no
`MalformedRecord` in the code) exactly when one of `count`, `timestamp`,
`uniques` is absent, the first missing key in that order; when all three
keys are present the record is constructed from the raw values with no
shape validation and no `uniques ≤ count` check. -/
theorem from_github_entry_semantics (entry : List (String × PyVal)) :
    (∀ c t u, entry.lookup "count" = some c → entry.lookup "timestamp" = some t →
        entry.lookup "uniques" = some u →
        PyCloneRecord.from_github_entry entry = .ok ⟨c, t, u⟩
          ∧ PyViewRecord.from_github_entry entry = .ok ⟨c, t, u⟩)
    ∧ (entry.lookup "count" = none →
        PyCloneRecord.from_github_entry entry = .error (.keyError "count")
          ∧ PyViewRecord.from_github_entry entry = .error (.keyError "count"))
    ∧ (∀ c, entry.lookup "count" = some c → entry.lookup "timestamp" = none →
        PyCloneRecord.from_github_entry entry = .error (.keyError "timestamp")
          ∧ PyViewRecord.from_github_entry entry = .error (.keyError "timestamp"))
    ∧ (∀ c t, entry.lookup "count" = some c → entry.lookup "timestamp" = some t →
        entry.lookup "uniques" = none →
        PyCloneRecord.from_github_entry entry = .error (.keyError "uniques")
          ∧ PyViewRecord.from_github_entry entry = .error (.keyError "uniques")) := by
  refine ⟨?_, ?_, ?_, ?_⟩
  · intro c t u h1 h2 h3
    unfold PyCloneRecord.from_github_entry PyViewRecord.from_github_entry dictGetItem
    rw [h1, h2, h3]
    exact ⟨rfl, rfl⟩
  · intro h1
    unfold PyCloneRecord.from_github_entry PyViewRecord.from_github_entry dictGetItem
    rw [h1]
    exact ⟨rfl, rfl⟩
  · intro c h1 h2
    unfold PyCloneRecord.from_github_entry PyViewRecord.from_github_entry dictGetItem
    rw [h1, h2]
    exact ⟨rfl, rfl⟩
  · intro c t h1 h2 h3
    unfold PyCloneRecord.from_github_entry PyViewRecord.from_github_entry dictGetItem
    rw [h1, h2, h3]
    exact ⟨rfl, rfl⟩

/-- C3 witness: one concrete entry per case of the amended semantics. -/
theorem from_github_entry_semantics_witness :
    (PyCloneRecord.from_github_entry
        [("count", .pInt 2), ("timestamp", .pInt 0), ("uniques", .pInt 9)]
      = .ok ⟨.pInt 2, .pInt 0, .pInt 9⟩)
    ∧ (PyCloneRecord.from_github_entry [("timestamp", .pInt 0)]
      = .error (.keyError "count"))
    ∧ (PyCloneRecord.from_github_entry [("count", .pInt 2)]
      = .error (.keyError "timestamp"))
    ∧ (PyCloneRecord.from_github_entry [("count", .pInt 2), ("timestamp", .pInt 0)]
      = .error (.keyError "uniques")) :=
  ⟨((from_github_entry_semantics
      [("count", .pInt 2), ("timestamp", .pInt 0), ("uniques", .pInt 9)]).1
      (.pInt 2) (.pInt 0) (.pInt 9) (by decide) (by decide) (by decide)).1,
   ((from_github_entry_semantics [("timestamp", .pInt 0)]).2.1 (by decide)).1,
   ((from_github_entry_semantics [("count", .pInt 2)]).2.2.1
      (.pInt 2) (by decide) (by decide)).1,
   ((from_github_entry_semantics [("count", .pInt 2), ("timestamp", .pInt 0)]).2.2.2
      (.pInt 2) (.pInt 0) (by decide) (by decide) (by decide)).1⟩

/-- C4 counterexample: the same logical state (one tracked repo with one
clone record, a star snapshot, matching traffic documents on the
document side) yields different summaries from the two backends. -/
theorem backend_stats_differ_concrete :
    sqliteGetStatsForRepo stC4 1000000 "r" ≠ fsGetStatsForRepo fsC4 950400 "r" := by
  decide

/-- C4 (amended): the two backends never return field-by-field identical
per-repo summaries: the relational adapter's dictionary always carries
eleven fields including `first_collected`, while the document adapter's
carries ten and no `first_collected` at all (its trailing-window fields
also come from a separate `aggregated_data` document rather than from
the traffic records), for every pair of states and query times. -/
theorem backend_summaries_never_equal (st : DbState) (fs : FsState)
    (now todayStart : Int) (repo : String) :
    sqliteGetStatsForRepo st now repo ≠ fsGetStatsForRepo fs todayStart repo := by
  intro h
  have hlen := congrArg List.length h
  simp [sqliteGetStatsForRepo, fsGetStatsForRepo] at hlen

/-- C5: merge-writing the same record set twice — for any repository and
either record kind — produces the same stored state as writing it
once. -/
theorem merge_write_idempotent (st : DbState) (repo : String)
    (cs : List CloneRecord) (vs : List ViewRecord) :
    upsert_clone_records (upsert_clone_records st repo cs) repo cs
        = upsert_clone_records st repo cs
    ∧ upsert_view_records (upsert_view_records st repo vs) repo vs
        = upsert_view_records st repo vs := by
  constructor
  · by_cases h : cs.isEmpty
    · simp [upsert_clone_records, h]
    · unfold upsert_clone_records
      simp only [if_neg h]
      have hid : (cs.map (cloneRow repo)).foldl replaceIntoHistory
          ((cs.map (cloneRow repo)).foldl replaceIntoHistory st.clone_history)
          = (cs.map (cloneRow repo)).foldl replaceIntoHistory st.clone_history :=
        foldl_replaceBy_idem hKey _ _
      rw [hid]
  · by_cases h : vs.isEmpty
    · simp [upsert_view_records, h]
    · unfold upsert_view_records
      simp only [if_neg h]
      have hid : (vs.map (viewRow repo)).foldl replaceIntoHistory
          ((vs.map (viewRow repo)).foldl replaceIntoHistory st.view_history)
          = (vs.map (viewRow repo)).foldl replaceIntoHistory st.view_history :=
        foldl_replaceBy_idem hKey _ _
      rw [hid]

/-- C6 counterexample: a source store whose tracked repo has a recorded
`last_sync` — after `import_all(export_all())` onto an empty store the
summaries differ, because `last_sync` is never exported and the import
leaves the column NULL, so `summarize_all` reports `last_updated =
null`. -/
theorem roundtrip_summaries_differ_concrete :
    get_all_repos_summary (import_database emptyDb true (export_database srcC6 0)) 0
      ≠ get_all_repos_summary srcC6 0 := by
  decide

/-- C6 (amended): for every source store satisfying the primary-key
invariants, `import_all(export_all())` with `replace_existing=true` on an
empty second store reproduces the source's `summarize_all()` result
except that every summary's `last_updated` is null (the snapshot carries
no `last_sync`); in particular the results are equal whenever no source
repo has a recorded `last_sync`. -/
theorem export_import_roundtrip (st : DbState) (now tExp : Int)
    (hc : (st.clone_history.map hKey).Nodup)
    (hv : (st.view_history.map hKey).Nodup)
    (ht : (st.tracked_repos.map TrackedRepoRow.repo_name).Nodup)
    (hs : (st.repo_stars.map RepoStarsRow.repo).Nodup) :
    get_all_repos_summary (import_database emptyDb true (export_database st tExp)) now
      = (get_all_repos_summary st now).map (fun s => { s with last_updated := none }) := by
  rw [roundtrip_state st tExp hc hv ht hs]
  exact summaries_of_reimport st now

/-- C6 witness: the round trip on a concrete two-repo store, with the
primary-key invariants checked by evaluation. -/
theorem export_import_roundtrip_witness :
    (srcC6b.clone_history.map hKey).Nodup
    ∧ (srcC6b.view_history.map hKey).Nodup
    ∧ (srcC6b.tracked_repos.map TrackedRepoRow.repo_name).Nodup
    ∧ (srcC6b.repo_stars.map RepoStarsRow.repo).Nodup
    ∧ get_all_repos_summary (import_database emptyDb true (export_database srcC6b 77)) 400
        = (get_all_repos_summary srcC6b 400).map (fun s => { s with last_updated := none }) :=
  ⟨by decide, by decide, by decide, by decide,
   export_import_roundtrip srcC6b 400 77 (by decide) (by decide) (by decide) (by decide)⟩

/-- C7: the trailing-14-day aggregate is computed against wall-clock
`now` at query time: a repository whose only clone records sit on days
`T-20`, `T-10`, `T-1` with counts 100, 50, 10 answers
`last_14_days_clones = 60` when queried at time `T` (the `T-20` record
falls outside the window), whatever the other tables hold. -/
theorem trailing_window_at_query_time (repo : String) (now u1 u2 u3 : Int)
    (vh : List HistoryRow) (trs : List TrackedRepoRow) (stars : List RepoStarsRow) :
    List.lookup "last_14_days_clones"
      (sqliteGetStatsForRepo
        ⟨[⟨repo, now - 20 * 86400, 100, u1⟩, ⟨repo, now - 10 * 86400, 50, u2⟩,
          ⟨repo, now - 1 * 86400, 10, u3⟩], vh, trs, stars⟩ now repo)
      = some (.vInt 60) := by
  have h20 : ¬ (now ≤ now - 1728000 + fourteenDays) := by unfold fourteenDays; omega
  have h10 : now ≤ now - 864000 + fourteenDays := by unfold fourteenDays; omega
  have h1 : now ≤ now - 86400 + fourteenDays := by unfold fourteenDays; omega
  simp [sqliteGetStatsForRepo, rowsFor, recentRows, sumCount, List.lookup, h20, h10, h1]

/-- C8: `import_all` semantics.  With `replace_existing=true` the result
is the snapshot loaded into a cleared store (independent of the prior
state).  With `replace_existing=false`: history rows under keys already
present are untouched; snapshot history entries whose key is absent end
up present; tracked-repo rows and star rows are overwritten by key
(taking the imported values — for tracked rows with `last_sync` NULL and
the default `owner_type`). -/
theorem import_database_semantics (st : DbState) (d : ExportData) :
    import_database st true d = import_database emptyDb true d
    ∧ (∀ k, containsKey st.clone_history k = true →
        rowsWithKey (import_database st false d).clone_history k
          = rowsWithKey st.clone_history k)
    ∧ (∀ k, containsKey st.view_history k = true →
        rowsWithKey (import_database st false d).view_history k
          = rowsWithKey st.view_history k)
    ∧ (∀ e ∈ d.clone_history, containsKey st.clone_history (hKey e) = false →
        containsKey (import_database st false d).clone_history (hKey e) = true)
    ∧ (∀ e ∈ d.view_history, containsKey st.view_history (hKey e) = false →
        containsKey (import_database st false d).view_history (hKey e) = true)
    ∧ ((d.tracked_repos.map TrackedExport.repo_name).Nodup →
        ∀ e ∈ d.tracked_repos,
          trackedRowsWithName (import_database st false d).tracked_repos e.repo_name
            = [importedTrackedRow e])
    ∧ ((d.repo_stars.map RepoStarsRow.repo).Nodup →
        ∀ e ∈ d.repo_stars,
          starRowsWithName (import_database st false d).repo_stars e.repo = [e]) := by
  refine ⟨rfl, ?_, ?_, ?_, ?_, ?_, ?_⟩
  · intro k hk
    exact rowsBy_foldl_insertIgnoreBy_of_contains hKey d.clone_history st.clone_history k hk
  · intro k hk
    exact rowsBy_foldl_insertIgnoreBy_of_contains hKey d.view_history st.view_history k hk
  · intro e he _
    exact containsBy_foldl_insertIgnoreBy_mem hKey d.clone_history st.clone_history e he
  · intro e he _
    exact containsBy_foldl_insertIgnoreBy_mem hKey d.view_history st.view_history e he
  · intro hn e he
    have hn' : ((d.tracked_repos.map importedTrackedRow).map TrackedRepoRow.repo_name).Nodup := by
      rw [List.map_map]
      exact hn
    exact rowsBy_foldl_replaceBy_mem TrackedRepoRow.repo_name
      (d.tracked_repos.map importedTrackedRow) st.tracked_repos (importedTrackedRow e)
      hn' (List.mem_map_of_mem importedTrackedRow he)
  · intro hn e he
    exact rowsBy_foldl_replaceBy_mem RepoStarsRow.repo d.repo_stars st.repo_stars e hn he

/-- C8 witness: the import semantics instantiated on a concrete store
and snapshot colliding on history, tracked and star keys. -/
theorem import_database_semantics_witness :
    containsKey stC8.clone_history ("a", 100) = true
    ∧ rowsWithKey (import_database stC8 false dC8).clone_history ("a", 100)
        = rowsWithKey stC8.clone_history ("a", 100)
    ∧ (⟨"b", 200, 6, 4⟩ : HistoryRow) ∈ dC8.clone_history
    ∧ containsKey stC8.clone_history ("b", 200) = false
    ∧ containsKey (import_database stC8 false dC8).clone_history ("b", 200) = true
    ∧ (dC8.tracked_repos.map TrackedExport.repo_name).Nodup
    ∧ trackedRowsWithName (import_database stC8 false dC8).tracked_repos "a"
        = [⟨"a", 42, 0, none, "user"⟩]
    ∧ (dC8.repo_stars.map RepoStarsRow.repo).Nodup
    ∧ starRowsWithName (import_database stC8 false dC8).repo_stars "a"
        = [⟨"a", 77, 400⟩] :=
  ⟨by decide,
   (import_database_semantics stC8 dC8).2.1 ("a", 100) (by decide),
   by decide, by decide,
   (import_database_semantics stC8 dC8).2.2.2.1 ⟨"b", 200, 6, 4⟩ (by decide) (by decide),
   by decide,
   (import_database_semantics stC8 dC8).2.2.2.2.2.1 (by decide) ⟨"a", 42, 0, "org"⟩ (by decide),
   by decide,
   (import_database_semantics stC8 dC8).2.2.2.2.2.2 (by decide) ⟨"a", 77, 400⟩ (by decide)⟩

/-- C9: repository path resolution — an identifier containing `'/'` is
used verbatim; otherwise the path is `owner/repository_id` with the
organization as owner for `owner_type = 'org'` when one is configured,
and the configured username (with a logged warning) when `owner_type =
'org'` but no organization is configured (unset or empty), or when the
owner type is anything else. -/
theorem repo_path_resolution (cfg : TrackerConfig) (name ot : String) :
    (name.data.any (fun c => c == '/') = true → get_repo_path cfg name ot = name)
    ∧ (name.data.any (fun c => c == '/') = false → ot = "org" →
        ∀ org, cfg.github_org = some org → org ≠ "" →
          get_repo_path cfg name ot = org ++ "/" ++ name)
    ∧ (name.data.any (fun c => c == '/') = false → ot = "org" →
        (cfg.github_org = none ∨ cfg.github_org = some "") →
          get_repo_path cfg name ot = cfg.github_username ++ "/" ++ name)
    ∧ (name.data.any (fun c => c == '/') = false → ot ≠ "org" →
        get_repo_path cfg name ot = cfg.github_username ++ "/" ++ name) := by
  refine ⟨?_, ?_, ?_, ?_⟩
  · intro h
    simp [get_repo_path, h]
  · intro h ho org he hne
    simp [get_repo_path, h, ho, he, hne]
  · intro h ho hor
    cases hor with
    | inl hnone => simp [get_repo_path, h, ho, hnone]
    | inr hempty => simp [get_repo_path, h, ho, hempty]
  · intro h ho
    simp [get_repo_path, h, ho]

/-- C9 witness: the four resolution cases on concrete configurations. -/
theorem repo_path_resolution_witness :
    get_repo_path cfgC9 "o/r" "user" = "o/r"
    ∧ get_repo_path cfgC9 "r" "org" = "acme/r"
    ∧ get_repo_path cfgC9b "r" "org" = "alice/r"
    ∧ get_repo_path cfgC9 "r" "user" = "alice/r" :=
  ⟨(repo_path_resolution cfgC9 "o/r" "user").1 (by decide),
   (repo_path_resolution cfgC9 "r" "org").2.1 (by decide) (by decide) "acme"
     (by decide) (by decide),
   (repo_path_resolution cfgC9b "r" "org").2.2.1 (by decide) (by decide)
     (Or.inl (by decide)),
   (repo_path_resolution cfgC9 "r" "user").2.2.2 (by decide) (by decide)⟩

/-- C10: re-tracking an already-present repository (active or inactive)
replaces the whole `tracked_repos` row: the stored row becomes
`(repo_name, added_at = now, is_active = 1, last_sync = NULL,
owner_type)` — the original `added_at` and the Synchronizer-maintained
`last_sync` are discarded. -/
theorem retrack_replaces_row (st : DbState) (name : String) (now : Int) (ot : String)
    (h : containsTrackedName st.tracked_repos name = true) :
    trackedRowsWithName (add_tracked_repo st name now ot).tracked_repos name
      = [⟨name, now, 1, none, ot⟩] := by
  have h1 : (add_tracked_repo st name now ot).tracked_repos
      = replaceIntoTracked st.tracked_repos ⟨name, now, 1, none, ot⟩ := rfl
  rw [h1]
  exact rowsBy_replaceBy_self TrackedRepoRow.repo_name st.tracked_repos ⟨name, now, 1, none, ot⟩

/-- C10 witness: re-tracking `"proj"` (inactive, `added_at = 1`,
`last_sync = 7`, `owner_type = "org"`) at time 99 resets the whole
row. -/
theorem retrack_replaces_row_witness :
    containsTrackedName stC10.tracked_repos "proj" = true
    ∧ trackedRowsWithName (add_tracked_repo stC10 "proj" 99 "user").tracked_repos "proj"
        = [⟨"proj", 99, 1, none, "user"⟩] :=
  ⟨by decide, retrack_replaces_row stC10 "proj" 99 "user" (by decide)⟩

end GitCloneStats
